import Mathlib

/-!
Verification of the streaming ZIP reader in `src/ideviceinstaller.c`
(signature scanner, local-file-header parser, entry decoder, sequential
cursor, app-bundle locator and bounded content fetcher).

The C code is shallowly embedded:
* a seekable archive is a `ByteFile` (a byte function plus a length);
  `fread` of `k` bytes from position `p` yields `min k (size - p)` bytes;
* the `ZipParser` struct and the functions `r_zip_skip_until_next_entry`,
  `r_reset_entry`, `r_close_entry`, `r_zip_get_next_entry`,
  `r_extract_to_buffer`, `r_get_content` and `r_get_app_directory` are
  translated statement by statement into total Lean functions; C loops
  become structural recursion on an explicit fuel or counter so that every
  definition evaluates by `decide`;
* zlib's raw inflate is external to the repository; it is abstracted by an
  `InflateOracle` giving, for a well-formed raw deflate stream starting at
  a payload offset, the number of compressed bytes the inflater consumes
  before signalling `Z_STREAM_END` and the decompressed output;
* undefined behaviour of the C (buffer overreads after a `size_t`
  underflow, pointer walks past the end of a string) is made explicit as
  distinguished outcomes (`oob`, `ub`), and a provably non-terminating
  loop state as `diverge`;
* machine integers are `Nat` (header fields are read from at most 4 bytes
  so they are bounded); the one place where C unsigned wrap-around
  matters, the scan-loop bound `read_size - 3` on `size_t`, is modelled
  explicitly with `% 2 ^ 64`.
-/

set_option maxRecDepth 100000

/-! ZIP format constants (lines 140-151 of the C source). -/

def LOCAL_HEADER_SIGNATURE : Nat := 0x04034b50

def CENTRAL_HEADER_SIGNATURE : Nat := 0x02014b50

def END_OF_CENTRAL_DIRECTORY_SIGNATURE : Nat := 0x06054b50

def CENTRAL_HEADER_DIGITAL_SIGNATURE : Nat := 0x05054b50

def ARCHIVE_EXTRA_DATA_SIGNATURE : Nat := 0x07064b50

def ZIP64_CENTRAL_FILE_HEADER_SIGNATURE : Nat := 0x06064b50

def BUFFER_SIZE : Nat := 4096

def COMPRESSION_STORE : Nat := 0

def COMPRESSION_DEFLATE : Nat := 8

def FLAG_DATA_DESCRIPTOR : Nat := 0x08

/-- The in-memory cap of `r_get_content` (10485760 bytes, lines 581/590). -/
def MAX_CONTENT_SIZE : Nat := 10485760

/-- Size of the fixed `char filename[256]` buffer in `ZipParser` (line 173). -/
def FILENAME_BUF_LEN : Nat := 256

/-- A seekable, readable byte source: `data j` is the byte at offset `j`
(only offsets `j < size` are ever read by the model, mirroring `fread`,
which returns `min requested (size - pos)` bytes from position `pos`). -/
structure ByteFile where
  data : Nat → Nat
  size : Nat

def ByteFile.ofList (l : List Nat) : ByteFile :=
  ⟨fun j => l.getD j 0, l.length⟩

/-- Little-endian read of `k` bytes at offset `off` (the C reads header
words with `memcpy` into packed little-endian struct fields). Bytes at or
past `size` read as 0; callers stay in bounds. -/
def readLE (f : ByteFile) (off : Nat) : Nat → Nat
  | 0 => 0
  | k + 1 => (if off < f.size then f.data off else 0) + 256 * readLE f (off + 1) k

/-- The bytes `fread` deposits for a `k`-byte read at `off`: available
bytes of the file, and 0 for the (memset-zeroed) remainder on a short
read at end of file. -/
def readBytes (f : ByteFile) (off : Nat) : Nat → List Nat
  | 0 => []
  | k + 1 => (if off < f.size then f.data off else 0) :: readBytes f (off + 1) k

/-- The terminal signatures of `r_zip_skip_until_next_entry`
(lines 224-228): seeing any of them means no more local entries. -/
def isTerminalSignature (w : Nat) : Bool :=
  w == CENTRAL_HEADER_SIGNATURE || w == END_OF_CENTRAL_DIRECTORY_SIGNATURE ||
  w == CENTRAL_HEADER_DIGITAL_SIGNATURE || w == ARCHIVE_EXTRA_DATA_SIGNATURE ||
  w == ZIP64_CENTRAL_FILE_HEADER_SIGNATURE

/-- Result of the signature scan `r_zip_skip_until_next_entry`:
`found h e` = local header signature at offset `h` (return 1), with the
file position at `e` (end of the chunk just read); `noMore e` = return 0
(terminal signature or zero read); `oob` = a 1- or 2-byte chunk read, for
which the C loop bound `read_size - 3` underflows in `size_t` and the
loop overreads the 4096-byte stack buffer (undefined behaviour);
`diverge` = a state the C never leaves (a 3-byte chunk read: the loop
body runs zero times and the reseek returns to the same chunk start). -/
inductive ScanRes where
  | found (headerOff : Nat) (endPos : Nat)
  | noMore (endPos : Nat)
  | oob
  | diverge
  deriving DecidableEq

def ScanRes.foundOff : ScanRes → Option Nat
  | .found h _ => some h
  | _ => none

/-- Inner loop of the scan (lines 213-231): examine the 4-byte word at
each chunk offset `i`, local-header signature first, then the terminal
signatures; `steps` counts the remaining iterations of
`for (i = 0; i < read_size - 3; ++i)`. Returns the first hit as
`some (i, isLocalHeader)`. -/
def chunkScan (f : ByteFile) (start : Nat) : Nat → Nat → Option (Nat × Bool)
  | 0, _ => none
  | steps + 1, i =>
    let w := readLE f (start + i) 4
    if w = LOCAL_HEADER_SIGNATURE then some (i, true)
    else if isTerminalSignature w then some (i, false)
    else chunkScan f start steps (i + 1)

/-- The loop bound `read_size - 3` exactly as the C computes it: in
`size_t` (64-bit unsigned) arithmetic, so it wraps around for
`read_size < 3`. -/
def scanLoopBound (readSize : Nat) : Nat :=
  (readSize + 2 ^ 64 - 3) % 2 ^ 64

/-- Chunked scan loop of `r_zip_skip_until_next_entry` (lines 203-235).
Each round freads `n = min 4096 (size - pos)` bytes:
* `n = 0`: return 0 (`noMore`);
* `n = 1` or `n = 2`: the loop bound `read_size - 3` underflows
  (`scanLoopBound n` is near `2 ^ 64`), so the loop examines offsets far
  past the bytes read, overreading the stack buffer: `oob`;
* `n = 3`: the loop body runs zero times and
  `_fseeki64(fp, start + read_size - 3)` reseeks to `start`, reproducing
  the same state forever: `diverge`;
* otherwise examine offsets `0 ≤ i < n - 3` and on no hit reseek to
  `pos + n - 3` (re-reading the last 3 bytes, so a signature straddling
  the chunk boundary is seen by the next round).
Structural fuel; `f.size + 1` rounds always suffice since the position
strictly increases. -/
def scanLoop (f : ByteFile) : Nat → Nat → ScanRes
  | 0, _ => .diverge
  | fuel + 1, pos =>
    let n := min BUFFER_SIZE (f.size - pos)
    if n = 0 then .noMore pos
    else if n = 1 ∨ n = 2 then .oob
    else if n = 3 then .diverge
    else
      match chunkScan f pos (n - 3) 0 with
      | some (i, true) => .found (pos + i) (pos + n)
      | some (_, false) => .noMore (pos + n)
      | none => scanLoop f fuel (pos + n - 3)

def r_zip_skip_until_next_entry (f : ByteFile) (pos : Nat) : ScanRes :=
  scanLoop f (f.size + 1) pos

/-- The packed 30-byte local file header (lines 155-167). -/
structure LocalFileHeader where
  signature : Nat
  version : Nat
  flags : Nat
  compression : Nat
  modTime : Nat
  modDate : Nat
  crc32 : Nat
  compressedSize : Nat
  uncompressedSize : Nat
  nameLength : Nat
  extraLength : Nat
  deriving DecidableEq

/-- `fread(&lfh, sizeof(lfh), 1, fp)` at offset `off`: `none` when fewer
than 30 bytes remain (fread returns 0 and the C returns 0). -/
def readLFH (f : ByteFile) (off : Nat) : Option LocalFileHeader :=
  if off + 30 ≤ f.size then
    some ⟨readLE f off 4, readLE f (off + 4) 2, readLE f (off + 6) 2,
          readLE f (off + 8) 2, readLE f (off + 10) 2, readLE f (off + 12) 2,
          readLE f (off + 14) 4, readLE f (off + 18) 4, readLE f (off + 22) 4,
          readLE f (off + 26) 2, readLE f (off + 28) 2⟩
  else none

/-- The `ZipParser` state (lines 171-183) together with the file position
of its `FILE*` (the C keeps the position in the stream; here it is a
field so that the state is a pure value). `filename` holds the bytes the
last name `fread` deposited. -/
structure ZipParser where
  pos : Nat
  filename : List Nat
  comp_size : Nat
  uncomp_size : Nat
  compression : Nat
  name_length : Nat
  extra_length : Nat
  flags : Nat
  data_start : Int
  header_start : Int
  consumed : Bool
  deriving DecidableEq

/-- Parser state right after `r_zip_open` (lines 186-195): calloc zeroes
everything, then `header_start = data_start = -1`. -/
def zp0open : ZipParser :=
  ⟨0, [], 0, 0, 0, 0, 0, 0, -1, -1, false⟩

/-- The fully zeroed state `r_reset_entry` produces at file position 0. -/
def zpCanon : ZipParser :=
  ⟨0, [], 0, 0, 0, 0, 0, 0, 0, 0, false⟩

/-- `r_reset_entry` (lines 238-249): memsets the entry fields of the
struct — note `header_start` and `data_start` become 0, not -1 — and does
not touch the file position. -/
def r_reset_entry (zp : ZipParser) : ZipParser :=
  { zp with
    filename := []
    comp_size := 0
    uncomp_size := 0
    compression := 0
    name_length := 0
    extra_length := 0
    flags := 0
    data_start := 0
    header_start := 0
    consumed := false }

/-- The test `flags & FLAG_DATA_DESCRIPTOR` (bit 3) of line 341. -/
def hasDescriptorFlag (flags : Nat) : Bool :=
  flags / 8 % 2 = 1

/-- Size recording of `r_zip_get_next_entry` (lines 340-347): when the
data-descriptor bit is set and the header's compressed size is 0, only
`comp_size` is assigned (the C does not write `uncomp_size` in that
branch, so it keeps the value already in the struct); otherwise both
sizes are taken from the header. -/
def applySizes (zp : ZipParser) (lfh : LocalFileHeader) : ZipParser :=
  if hasDescriptorFlag lfh.flags ∧ lfh.compressedSize = 0 then
    { zp with comp_size := 0 }
  else
    { zp with comp_size := lfh.compressedSize, uncomp_size := lfh.uncompressedSize }

/-- Abstraction of zlib's raw inflate (external to this repository), for
a well-formed raw deflate stream beginning at a given absolute payload
offset of the archive: `consumedLen off` is the number of compressed
bytes the inflater consumes from `off` before it signals `Z_STREAM_END`,
and `output off` is the decompressed byte sequence it produces. The
concrete archives used below contain only store entries, so the oracle is
never consulted in their traces. -/
structure InflateOracle where
  consumedLen : Nat → Nat
  output : Nat → List Nat

/-- `r_close_entry` (lines 251-303): for deflate, inflate the stream to
nowhere counting consumed input and reseek to `data_start + total_in`;
for store, seek to `data_start + comp_size`; for any other method, no
seek at all; finally `r_reset_entry`. -/
def r_close_entry (O : InflateOracle) (zp : ZipParser) : ZipParser :=
  r_reset_entry
    (if zp.compression = COMPRESSION_DEFLATE then
      { zp with pos := zp.data_start.toNat + O.consumedLen zp.data_start.toNat }
    else if zp.compression = COMPRESSION_STORE then
      { zp with pos := (zp.data_start + (zp.comp_size : Int)).toNat }
    else zp)

/-- Outcome of `r_zip_get_next_entry`: `ok` = return 1 with the entry
positioned; `done` = return 0 (terminal signature, short header read or
bad signature); `storeDescriptorError` = the return 0 of lines 349-353
("Store method, but exists data descriptor"); `oob`/`diverge` propagate
the scanner's undefined/non-terminating states. -/
inductive NextResult where
  | ok (zp : ZipParser)
  | done (zp : ZipParser)
  | storeDescriptorError (zp : ZipParser)
  | oob
  | diverge
  deriving DecidableEq

def NextResult.okState : NextResult → Option ZipParser
  | .ok z => some z
  | _ => none

def NextResult.isStoreDescriptorError : NextResult → Bool
  | .storeDescriptorError _ => true
  | _ => false

/-- Scan-and-parse phase of `r_zip_get_next_entry` (lines 311-355): scan
for the next signature, seek to it, read the 30-byte header, read
`name_length` bytes of filename (with no bound check against the 256-byte
buffer, see `filenameWriteOverflow`), skip `extra_length` bytes, record
the fields, apply the size rule and reject store-with-descriptor only
when `flags == FLAG_DATA_DESCRIPTOR` exactly. -/
def r_zip_next_scan (f : ByteFile) (zp : ZipParser) : NextResult :=
  match r_zip_skip_until_next_entry f zp.pos with
  | .oob => .oob
  | .diverge => .diverge
  | .noMore endPos => .done { zp with pos := endPos }
  | .found hOff _ =>
    let zp1 := { zp with header_start := (hOff : Int), pos := hOff }
    match readLFH f hOff with
    | none => .done { zp1 with pos := f.size }
    | some lfh =>
      if lfh.signature ≠ LOCAL_HEADER_SIGNATURE then .done { zp1 with pos := hOff + 30 }
      else
        let nameBytes := readBytes f (hOff + 30) lfh.nameLength
        let posAfterName := hOff + 30 + min lfh.nameLength (f.size - (hOff + 30))
        let dataStart := posAfterName + lfh.extraLength
        let zp2 := { zp1 with
                     compression := lfh.compression
                     flags := lfh.flags
                     name_length := lfh.nameLength
                     extra_length := lfh.extraLength
                     filename := nameBytes
                     data_start := (dataStart : Int)
                     pos := dataStart }
        let zp3 := applySizes zp2 lfh
        if zp3.compression = COMPRESSION_STORE ∧ zp3.flags = FLAG_DATA_DESCRIPTOR then
          .storeDescriptorError zp3
        else .ok zp3

/-- `r_zip_get_next_entry` (lines 306-356): auto-close the current entry
when it is unconsumed and `header_start != -1`, then scan and parse. Note
that the parse never writes `consumed`, so the flag carries over from the
previous state. -/
def r_zip_get_next_entry (O : InflateOracle) (f : ByteFile) (zp : ZipParser) : NextResult :=
  r_zip_next_scan f
    (if zp.consumed = false ∧ zp.header_start ≠ -1 then r_close_entry O zp else zp)

/-- The C writes the entry name with `fread(zp->filename, name_length, 1)`
and then `zp->filename[name_length] = 0` into `char filename[256]` with no
check (lines 327-328): the highest index written is `name_length`, so the
writes leave the 256-byte buffer exactly when `name_length ≥ 256`. -/
def filenameWriteOverflow (nameLength : Nat) : Bool :=
  decide (FILENAME_BUF_LEN ≤ nameLength)

/-- The chunked fread/inflate loop shared by the deflate branches of
`r_extract_current` (lines 425-450), `r_close_entry` (lines 272-289) and
`r_extract_to_buffer` (lines 512-547): from position `pos`, each round
freads `n = min 4096 (fileSize - pos)` bytes and feeds them to the
inflater, which consumes input until the raw deflate stream of total
compressed length `c` signals `Z_STREAM_END`. Returns
`(position after the last fread, total compressed bytes consumed)`.
A zero-length read before stream end (truncated stream) stops the model;
the C would loop forever there. Fuel is structural; `fileSize + 1` rounds
always suffice. -/
def inflateReadLoop (fileSize c : Nat) : Nat → Nat → Nat → Nat × Nat
  | 0, pos, fed => (pos, fed)
  | fuel + 1, pos, fed =>
    let n := min BUFFER_SIZE (fileSize - pos)
    let fed2 := fed + min (c - fed) n
    if c ≤ fed2 ∨ n = 0 then (pos + n, fed2)
    else inflateReadLoop fileSize c fuel (pos + n) fed2

/-- Stream position after `r_extract_current`'s deflate branch for a
payload at `dataStart` whose raw deflate stream is `c` compressed bytes:
the code tracks `total_in_size` and executes
`_fseeki64(fp, data_start + total_in_size, SEEK_SET)` (line 453). -/
def r_extract_current_deflate_pos (fileSize dataStart c : Nat) : Nat :=
  dataStart + (inflateReadLoop fileSize c (fileSize + 1) dataStart 0).2

/-- Stream position after `r_extract_to_buffer`'s deflate branch (lines
490-562) for the same entry: the loop freads whole chunks and the
function returns with NO repositioning seek, so the position is wherever
the last chunked fread stopped. -/
def r_extract_to_buffer_deflate_pos (fileSize dataStart c : Nat) : Nat :=
  (inflateReadLoop fileSize c (fileSize + 1) dataStart 0).1

/-- Result of `r_extract_to_buffer`: `ok bytes len zp` = return 1 with
`*buffer = bytes` and `*len = len`; `err zp` = return 0 with
`*buffer = NULL` (which is also what the C produces for a compression
method that is neither store nor deflate, since `result` stays 0). -/
inductive ExtractBufResult where
  | ok (bytes : List Nat) (len : Nat) (zp : ZipParser)
  | err (zp : ZipParser)
  deriving DecidableEq

def ExtractBufResult.zpOk : ExtractBufResult → Option ZipParser
  | .ok _ _ z => some z
  | .err _ => none

def ExtractBufResult.posOk : ExtractBufResult → Option Nat
  | .ok _ _ z => some z.pos
  | .err _ => none

/-- `r_extract_to_buffer` (lines 465-565). Store: one
`fread(*buffer, comp_size, 1)` from `data_start` — at end of file the
read is short but `ferror()` stays false, so the code proceeds with
`*len = comp_size` (unwritten malloc bytes modelled as 0) and the
position advances by the bytes actually available. Deflate: inflate via
the oracle into the growing buffer; the chunked fread loop leaves the
position after the last chunk read with no repositioning (contrast
`r_extract_current_deflate_pos`). Both set `consumed = true`. -/
def r_extract_to_buffer (O : InflateOracle) (f : ByteFile) (zp : ZipParser) :
    ExtractBufResult :=
  let ds := zp.data_start.toNat
  if zp.compression = COMPRESSION_STORE then
    .ok (readBytes f ds zp.comp_size) zp.comp_size
      { zp with pos := ds + min zp.comp_size (f.size - ds), consumed := true }
  else if zp.compression = COMPRESSION_DEFLATE then
    let out := O.output ds
    .ok out out.length
      { zp with
        pos := (inflateReadLoop f.size (O.consumedLen ds) (f.size + 1) ds 0).1
        consumed := true }
  else .err zp

/-- Buffer growth of `r_extract_to_buffer`'s deflate branch (lines
534-545): state is `(alloc_size, total_size)`; for each inflate output of
`have` bytes (`have ≤ 4096`), the buffer is doubled once when
`total_size + have > alloc_size` and the bytes are appended. There is no
size cap anywhere in the loop. -/
def bufGrowStep : Nat × Nat → Nat → Nat × Nat
  | (alloc, total), produced =>
    (if alloc < total + produced then alloc * 2 else alloc, total + produced)

/-- Final `(alloc_size, total_size)` after decoding an entry whose
inflate calls produce the output chunk sizes `outChunks` (initial
allocation 4096, line 503). The decode runs to stream end unconditionally:
nothing compares `total_size` with any cap during the loop. -/
def r_extract_to_buffer_growth (outChunks : List Nat) : Nat × Nat :=
  outChunks.foldl bufGrowStep (4096, 0)

/-- The two outcomes of the size check in `r_get_content` for a matched
entry: `tooLarge` = "ERROR: file is too large" and return -1;
`accepted len` = entry delivered with `len` bytes. -/
inductive FetchCheck where
  | tooLarge
  | accepted (len : Nat)
  deriving DecidableEq

/-- The size-cap decision of `r_get_content` (lines 580-595) for a
matched entry, with `uncompSize` the entry's declared uncompressed size
and `decodedLen` the length `r_extract_to_buffer` would produce. The
returned Bool records whether `r_extract_to_buffer` is invoked: a known
(non-zero) declared size above the cap fails without decoding; an unknown
(zero) declared size decodes FIRST and only then compares the produced
length with the cap. -/
def contentSizeCheck (uncompSize decodedLen : Nat) : FetchCheck × Bool :=
  if uncompSize ≠ 0 then
    if MAX_CONTENT_SIZE < uncompSize then (.tooLarge, false)
    else (.accepted decodedLen, true)
  else if MAX_CONTENT_SIZE < decodedLen then (.tooLarge, true)
  else (.accepted decodedLen, true)

/-- `strncmp(a, b, n) == 0` with C semantics: compare at most `n`
characters, stopping early at a NUL in either string; the end of a byte
list stands for the terminating NUL of the C string. -/
def strncmpZ : List Nat → List Nat → Nat → Bool
  | _, _, 0 => true
  | [], [], _ + 1 => true
  | [], b :: _, _ + 1 => b == 0
  | a :: _, [], _ + 1 => a == 0
  | a :: as, b :: bs, n + 1 =>
    if a ≠ b then false else if a = 0 then true else strncmpZ as bs n

/-- Outputs of `r_get_content` (lines 567-606): return code (0 or -1),
`*buffer` (`none` = NULL), `*len`, and the parser state left behind. Note
the C returns 0 both when a match was delivered and when no entry
matched; and on the unknown-size too-large path it returns -1 with
`*buffer` still pointing at the decoded data and `*len` still 0. -/
structure ContentOut where
  rc : Int
  buffer : Option (List Nat)
  len : Nat
  zp : ZipParser
  deriving DecidableEq

inductive COut where
  | ret (o : ContentOut)
  | oob
  | diverge
  | fuelOut
  deriving DecidableEq

def COut.ret? : COut → Option ContentOut
  | .ret o => some o
  | _ => none

/-- The `while (r_zip_get_next_entry(zp))` loop of `r_get_content`
(lines 575-599), with `target` the sought name and prefix matching via
`strncmp(name, file_name, strlen(file_name))`. -/
def r_get_content_loop (O : InflateOracle) (f : ByteFile) (target : List Nat) :
    Nat → ZipParser → COut
  | 0, _ => .fuelOut
  | fuel + 1, zp =>
    match r_zip_get_next_entry O f zp with
    | .oob => .oob
    | .diverge => .diverge
    | .done z => .ret ⟨0, none, 0, r_reset_entry z⟩
    | .storeDescriptorError z => .ret ⟨0, none, 0, r_reset_entry z⟩
    | .ok z =>
      if strncmpZ z.filename target target.length then
        if z.uncomp_size ≠ 0 then
          if MAX_CONTENT_SIZE < z.uncomp_size then
            .ret ⟨-1, none, 0, r_reset_entry z⟩
          else
            match r_extract_to_buffer O f z with
            | .ok bytes len z2 => .ret ⟨0, some bytes, len % 2 ^ 32, r_reset_entry z2⟩
            | .err z2 => .ret ⟨0, none, 0, r_reset_entry z2⟩
        else
          match r_extract_to_buffer O f z with
          | .ok bytes len z2 =>
            if MAX_CONTENT_SIZE < len then .ret ⟨-1, some bytes, 0, r_reset_entry z2⟩
            else .ret ⟨0, some bytes, len % 2 ^ 32, r_reset_entry z2⟩
          | .err z2 => .ret ⟨0, none, 0, r_reset_entry z2⟩
      else r_get_content_loop O f target fuel z

/-- `r_get_content` (lines 567-606): `*buffer = NULL`, `*len = 0`,
`r_reset_entry(zp)` (line 571), then the scan loop; on every exit path
`*len = (uint32_t)size` is the 32-bit truncation and the state is reset
again. -/
def r_get_content (O : InflateOracle) (f : ByteFile) (target : List Nat)
    (zp : ZipParser) (fuel : Nat) : COut :=
  r_get_content_loop O f target fuel (r_reset_entry zp)

/-- `strlen` on the stored name bytes (the byte after the stored bytes is
the NUL the C writes at `filename[name_length]`). -/
def cstrlen : List Nat → Nat
  | [] => 0
  | b :: r => if b = 0 then 0 else cstrlen r + 1

/-- The slash scan of `r_get_app_directory` (lines 623-628) over the
bytes from index `i` on: first index holding a slash. The C loop
`do { if (*p == '/') break; } while (p++ != NULL);` can only exit via the
break, so `none` means the C walks past the stored name into adjacent
memory (undefined behaviour) — the `if (p == NULL) continue;` that was
meant to skip such entries is dead code. -/
def findSlashAux : List Nat → Nat → Option Nat
  | [], _ => none
  | b :: r, i => if b = 47 then some i else findSlashAux r (i + 1)

/-- `strncmp(p - 4, ".app", 4) == 0` of line 637: a plain 4-byte
comparison (the pattern contains no NUL). -/
def bytesAt (name : List Nat) (start : Nat) (pat : List Nat) : Bool :=
  (List.range pat.length).all fun k => name.getD (start + k) 0 == pat.getD k 0

-- "Payload/"
def payloadPrefix : List Nat := [80, 97, 121, 108, 111, 97, 100, 47]

-- ".app"
def dotAppBytes : List Nat := [46, 97, 112, 112]

/-- What `r_get_app_directory` does with one entry name (lines 614-655):
`skip` = continue to the next entry, `accept p` = copy the prefix `p`
(through the slash) and stop, `ub` = the slash scan runs off the string
(undefined behaviour). -/
inductive AppEntryStep where
  | skip
  | accept (path : List Nat)
  | ub
  deriving DecidableEq

def appDirEntryStep (name : List Nat) : AppEntryStep :=
  let len := cstrlen name
  if strncmpZ name payloadPrefix 8 ∧ 8 < len then
    if name.getD 8 0 = 46 then .skip
    else
      match findSlashAux (name.drop 8) 8 with
      | none => .ub
      | some idx =>
        if idx + 1 < 12 ∨ bytesAt name (idx - 4) dotAppBytes = false then .skip
        else .accept (name.take (idx + 1))
  else .skip

/-- Results of `r_get_app_directory` (lines 608-664): `okPath` = return 0
with `*path` set; `notFound` = return -1 (`*path` still NULL). -/
inductive AppDirResult where
  | okPath (path : List Nat) (zp : ZipParser)
  | notFound (zp : ZipParser)
  | ub
  | oob
  | diverge
  | fuelOut
  deriving DecidableEq

def AppDirResult.path? : AppDirResult → Option (List Nat)
  | .okPath p _ => some p
  | _ => none

def AppDirResult.isNotFound : AppDirResult → Bool
  | .notFound _ => true
  | _ => false

/-- The `while (r_zip_get_next_entry(zp))` loop of `r_get_app_directory`
(lines 611-657); no state reset happens before or after the loop. -/
def r_get_app_dir_loop (O : InflateOracle) (f : ByteFile) :
    Nat → ZipParser → AppDirResult
  | 0, _ => .fuelOut
  | fuel + 1, zp =>
    match r_zip_get_next_entry O f zp with
    | .oob => .oob
    | .diverge => .diverge
    | .done z => .notFound z
    | .storeDescriptorError z => .notFound z
    | .ok z =>
      match appDirEntryStep z.filename with
      | .skip => r_get_app_dir_loop O f fuel z
      | .ub => .ub
      | .accept path => .okPath path z

def r_get_app_directory (O : InflateOracle) (f : ByteFile) (zp : ZipParser)
    (fuel : Nat) : AppDirResult :=
  r_get_app_dir_loop O f fuel zp

/-! Concrete archives and states used as test inputs. The builders below
are test-harness helpers (they construct archive bytes; they do not model
repository code). -/

/-- Little-endian encoding of `v` in `k` bytes. -/
def encodeLE : Nat → Nat → List Nat
  | 0, _ => []
  | k + 1, v => v % 256 :: encodeLE k (v / 256)

/-- A local entry: 30-byte header, then the name bytes, then the payload
bytes (version 20, times/CRC zero, extra field empty). -/
def mkEntry (flags compression csize usize : Nat) (name payload : List Nat) :
    List Nat :=
  encodeLE 4 LOCAL_HEADER_SIGNATURE ++ encodeLE 2 20 ++ encodeLE 2 flags ++
  encodeLE 2 compression ++ encodeLE 2 0 ++ encodeLE 2 0 ++ encodeLE 4 0 ++
  encodeLE 4 csize ++ encodeLE 4 usize ++ encodeLE 2 name.length ++
  encodeLE 2 0 ++ name ++ payload

/-- A central-directory header signature, terminating the scan. -/
def terminalMark : List Nat := encodeLE 4 CENTRAL_HEADER_SIGNATURE

/-- An oracle for archives whose traces never reach a deflate branch. -/
def O0 : InflateOracle := ⟨fun _ => 0, fun _ => []⟩

-- "aa" = [97, 97]; "bb" = [98, 98]; payloads "x" = [120] and "y" = [121].
/-- Two store entries, "aa" then "bb", then a terminal mark (70 bytes):
entry "aa" has header at 0 and payload at 32, entry "bb" has header at 33
and payload at 65. -/
def file70 : ByteFile :=
  ByteFile.ofList
    (mkEntry 0 0 1 1 [97, 97] [120] ++ mkEntry 0 0 1 1 [98, 98] [121] ++
     terminalMark)

/-- Store entry "aa" with declared uncompressed size 5 (header csize 1,
payload "x"), followed by a deflate entry "bb" with the data-descriptor
flag set and zero header sizes, then a terminal mark. -/
def archiveStale : ByteFile :=
  ByteFile.ofList
    (mkEntry 0 0 1 5 [97, 97] [120] ++ mkEntry 8 8 0 0 [98, 98] [] ++
     terminalMark)

/-- A store entry with flags 0x0A (data-descriptor bit 3 set plus bit 1)
and zero header sizes. -/
def archiveStoreFlagA : ByteFile :=
  ByteFile.ofList (mkEntry 10 0 0 0 [97] [] ++ terminalMark)

/-- A store entry with flags exactly 0x08 and zero header sizes. -/
def archiveStoreFlag8 : ByteFile :=
  ByteFile.ofList (mkEntry 8 0 0 0 [97] [] ++ terminalMark)

/-- A store entry whose header declares a 300-byte filename (300 bytes of
"a"), exceeding the 256-byte `filename` buffer. -/
def archiveLongName : ByteFile :=
  ByteFile.ofList
    (mkEntry 0 0 1 1 (List.replicate 300 97) [120] ++ terminalMark)

-- "Payload/.hidden/foo"
def nameHidden : List Nat :=
  payloadPrefix ++ [46, 104, 105, 100, 100, 101, 110, 47, 102, 111, 111]

-- "Payload/Foo.app/bin"
def nameFooApp : List Nat :=
  payloadPrefix ++ [70, 111, 111, 46, 97, 112, 112, 47, 98, 105, 110]

-- "Payload/Bar.app/bin"
def nameBarApp : List Nat :=
  payloadPrefix ++ [66, 97, 114, 46, 97, 112, 112, 47, 98, 105, 110]

-- "Payload/Foo.app/" (the expected bundle prefix)
def nameFooAppPrefix : List Nat :=
  payloadPrefix ++ [70, 111, 111, 46, 97, 112, 112, 47]

-- "Payload/Foo" (no slash after the prefix)
def namePayloadFoo : List Nat := payloadPrefix ++ [70, 111, 111]

/-- Store entries "Payload/.hidden/foo", "Payload/Foo.app/bin",
"Payload/Bar.app/bin" (zero-length payloads), then a terminal mark. -/
def archiveApp : ByteFile :=
  ByteFile.ofList
    (mkEntry 0 0 0 0 nameHidden [] ++ mkEntry 0 0 0 0 nameFooApp [] ++
     mkEntry 0 0 0 0 nameBarApp [] ++ terminalMark)

/-- A single store entry "aa" (no `.app` bundle), then a terminal mark. -/
def archiveNoApp : ByteFile :=
  ByteFile.ofList (mkEntry 0 0 1 1 [97, 97] [120] ++ terminalMark)

/-- An 8192-byte all-zero file, as ambient archive for the position
models. -/
def fileBlank8192 : ByteFile := ⟨fun _ => 0, 8192⟩

/-- Oracle for a raw deflate stream of 10 compressed bytes producing one
output byte. -/
def oracle10 : InflateOracle := ⟨fun _ => 10, fun _ => [0]⟩

/-- A positioned deflate entry with payload at offset 0. -/
def zpDeflateAt0 : ZipParser := { zpCanon with compression := 8 }

/-- A positioned store entry of 5 bytes with payload at offset 10. -/
def zpStoreAt10 : ZipParser := { zpCanon with comp_size := 5, data_start := 10 }

/-- A two-byte, a three-byte and an empty file for the short-read cases. -/
def fileTwoBytes : ByteFile := ByteFile.ofList [80, 75]

def fileThreeBytes : ByteFile := ByteFile.ofList [80, 75, 3]

def fileEmpty : ByteFile := ByteFile.ofList []

/-- The byte file with a local-header signature whose 4 bytes straddle
the first 4096-byte chunk boundary: bytes 4093-4096 of a 4097-byte file
hold `50 4b 03 04`, all other bytes are zero. -/
def straddleFile : ByteFile :=
  ⟨fun j =>
    if j = 4093 then 0x50 else if j = 4094 then 0x4b
    else if j = 4095 then 0x03 else if j = 4096 then 0x04 else 0, 4097⟩

/-- A header with the data-descriptor flag set, zero compressed size and
declared uncompressed size 7 (deflate). -/
def lfhDescriptor : LocalFileHeader := ⟨0x04034b50, 20, 8, 8, 0, 0, 0, 0, 7, 1, 0⟩

/-- A parser state carrying `uncomp_size = 5` from an earlier consumed
entry. -/
def zpStale5 : ZipParser := { zpCanon with uncomp_size := 5, consumed := true }

/-! Helper lemmas. -/

theorem chunkScan_eq_none (f : ByteFile) (start : Nat) :
    ∀ steps i,
      (∀ j, i ≤ j → j < i + steps →
        readLE f (start + j) 4 ≠ LOCAL_HEADER_SIGNATURE ∧
        isTerminalSignature (readLE f (start + j) 4) = false) →
      chunkScan f start steps i = none := by
  intro steps
  induction steps with
  | zero => intro i _; rfl
  | succ k ih =>
    intro i h
    have h0 := h i (Nat.le_refl i) (by omega)
    simp only [chunkScan]
    rw [if_neg h0.1, if_neg (by simp [h0.2])]
    exact ih (i + 1) (fun j hj1 hj2 => h j (by omega) (by omega))

theorem chunkScan_eq_found (f : ByteFile) (start : Nat) :
    ∀ steps i t, i ≤ t → t < i + steps →
      readLE f (start + t) 4 = LOCAL_HEADER_SIGNATURE →
      (∀ j, i ≤ j → j < t →
        readLE f (start + j) 4 ≠ LOCAL_HEADER_SIGNATURE ∧
        isTerminalSignature (readLE f (start + j) 4) = false) →
      chunkScan f start steps i = some (t, true) := by
  intro steps
  induction steps with
  | zero => intro i t h1 h2 _ _; omega
  | succ k ih =>
    intro i t h1 h2 hsig hclean
    simp only [chunkScan]
    rcases Nat.eq_or_lt_of_le h1 with rfl | hlt
    · rw [if_pos hsig]
    · have h0 := hclean i (Nat.le_refl i) hlt
      rw [if_neg h0.1, if_neg (by simp [h0.2])]
      exact ih (i + 1) t (by omega) (by omega) hsig
        (fun j hj1 hj2 => hclean j (by omega) hj2)

theorem scanLoop_foundOff (f : ByteFile) (s : Nat)
    (hs : s + 4 ≤ f.size)
    (hsig : readLE f s 4 = LOCAL_HEADER_SIGNATURE) :
    ∀ fuel pos, pos ≤ s → f.size ≤ pos + fuel →
      (∀ j, pos ≤ j → j < s →
        readLE f j 4 ≠ LOCAL_HEADER_SIGNATURE ∧
        isTerminalSignature (readLE f j 4) = false) →
      (scanLoop f fuel pos).foundOff = some s := by
  intro fuel
  induction fuel with
  | zero => intro pos h1 h2 _; omega
  | succ k ih =>
    intro pos hps hsz hclean
    have hn4 : 4 ≤ min BUFFER_SIZE (f.size - pos) := by
      have : (4 : Nat) ≤ BUFFER_SIZE := by decide
      omega
    simp only [scanLoop]
    rw [if_neg (by omega), if_neg (by omega), if_neg (by omega)]
    by_cases hcase : s - pos ≤ min BUFFER_SIZE (f.size - pos) - 4
    · have hfound : chunkScan f pos (min BUFFER_SIZE (f.size - pos) - 3) 0 =
          some (s - pos, true) := by
        refine chunkScan_eq_found f pos _ 0 (s - pos) (Nat.zero_le _) (by omega) ?_ ?_
        · have hps2 : pos + (s - pos) = s := by omega
          rw [hps2]; exact hsig
        · intro j hj1 hj2
          exact hclean (pos + j) (by omega) (by omega)
      rw [hfound]
      simp only [ScanRes.foundOff]
      congr 1
      omega
    · have hnone : chunkScan f pos (min BUFFER_SIZE (f.size - pos) - 3) 0 = none := by
        refine chunkScan_eq_none f pos _ 0 ?_
        intro j hj1 hj2
        exact hclean (pos + j) (by omega) (by omega)
      rw [hnone]
      exact ih (pos + min BUFFER_SIZE (f.size - pos) - 3) (by omega) (by omega)
        (fun j hj1 hj2 => hclean j (by omega) hj2)

theorem straddle_data_zero (m : Nat) (h : m < 4093) : straddleFile.data m = 0 := by
  show (if m = 4093 then 0x50 else if m = 4094 then 0x4b
    else if m = 4095 then 0x03 else if m = 4096 then 0x04 else 0) = 0
  rw [if_neg (by omega), if_neg (by omega), if_neg (by omega), if_neg (by omega)]

theorem straddle_word_zero (j : Nat) (h : j + 3 < 4093) :
    readLE straddleFile j 4 = 0 := by
  have hsize : straddleFile.size = 4097 := rfl
  simp only [readLE, hsize]
  rw [if_pos (by omega), if_pos (by omega), if_pos (by omega), if_pos (by omega),
    straddle_data_zero j (by omega), straddle_data_zero (j + 1) (by omega),
    straddle_data_zero (j + 1 + 1) (by omega), straddle_data_zero (j + 1 + 1 + 1) (by omega)]

theorem bufGrow_total (cs : List Nat) :
    ∀ a t : Nat, (cs.foldl bufGrowStep (a, t)).2 = t + cs.sum := by
  induction cs with
  | nil => intro a t; simp
  | cons c rest ih =>
    intro a t
    simp only [List.foldl, bufGrowStep, List.sum_cons]
    rw [ih]
    omega

/-! Claim theorems. -/

/-- C6: for every byte stream in which a 4-byte local-file-header
signature begins at an offset `s` (with no local-header or terminal
signature word at any earlier offset the scan examines), the scan finds
it and returns Found with exactly that offset — in particular also when
the signature's 4 bytes straddle a 4096-byte chunk boundary (offsets
4093, 4094, 4095 of a chunk), because after an exhausted chunk the stream
is repositioned to `chunk_start + read_size - 3` before the next read. -/
theorem c6_scanner_finds_signature (f : ByteFile) (pos s : Nat)
    (hpos : pos ≤ s) (hs : s + 4 ≤ f.size)
    (hsig : readLE f s 4 = LOCAL_HEADER_SIGNATURE)
    (hclean : ∀ j < s, pos ≤ j →
      readLE f j 4 ≠ LOCAL_HEADER_SIGNATURE ∧
      isTerminalSignature (readLE f j 4) = false) :
    (r_zip_skip_until_next_entry f pos).foundOff = some s := by
  unfold r_zip_skip_until_next_entry
  exact scanLoop_foundOff f s hs hsig (f.size + 1) pos hpos (by omega)
    (fun j h1 h2 => hclean j h2 h1)

/-- C6 witness: the signature straddling the first 4096-byte chunk
boundary of `straddleFile` (its 4 bytes at offsets 4093-4096) is found at
offset 4093. -/
theorem c6_scanner_finds_signature_witness :
    (r_zip_skip_until_next_entry straddleFile 0).foundOff = some 4093 :=
  c6_scanner_finds_signature straddleFile 0 4093 (by omega) (by decide) (by decide)
    (by
      intro j hj _
      rcases Nat.lt_or_ge j 4090 with h | h
      · rw [straddle_word_zero j (by omega)]
        exact ⟨by decide, by decide⟩
      · interval_cases j
        · exact ⟨by decide, by decide⟩
        · exact ⟨by decide, by decide⟩
        · exact ⟨by decide, by decide⟩)

/-- C7: the scan examines 4-byte words only at offsets `0 ≤ i ≤ n - 4`
when a chunk read returns `n ≥ 4` bytes (the loop bound `read_size - 3`
equals `n - 3` there, e.g. 4093 for a full 4096-byte chunk), but the
claimed "short reads return EndOfEntries" fails: only a zero read returns
EndOfEntries, while for a 2-byte read the `size_t` loop bound underflows
to `2 ^ 64 - 1` — so the loop examines offsets past the last valid word
start 4092 of the 4096-byte buffer (out-of-bounds reads) — and a 3-byte
read reseeks to the same chunk start and never terminates. -/
theorem c7_short_read_eval :
    scanLoopBound 4096 = 4093
    ∧ scanLoopBound 4 = 1
    ∧ scanLoopBound 2 = 2 ^ 64 - 1
    ∧ 4092 < scanLoopBound 2
    ∧ scanLoopBound 1 = 2 ^ 64 - 2
    ∧ r_zip_skip_until_next_entry fileTwoBytes 0 = .oob
    ∧ r_zip_skip_until_next_entry fileThreeBytes 0 = .diverge
    ∧ r_zip_skip_until_next_entry fileEmpty 0 = .noMore 0 := by
  refine ⟨by decide, by decide, ?_, ?_, ?_, by decide, by decide, by decide⟩
  · decide
  · decide
  · decide

/-- C1 counterexample: with the declared uncompressed size unknown (0),
an entry whose inflate calls produce 2561 output chunks of 4096 bytes
each is decoded to completion by `r_extract_to_buffer` — the growth loop
has no cap, so 10489856 bytes (more than `MAX_CONTENT_SIZE` = 10485760)
are buffered in memory — and only afterwards does `r_get_content`'s check
report it too large (decoder invoked: `true`). This refutes "buffered
memory never exceeds the cap even on a malicious archive". -/
theorem c1_uncapped_buffer_counterexample :
    (r_extract_to_buffer_growth (List.replicate 2561 4096)).2 = 10489856
    ∧ MAX_CONTENT_SIZE < 10489856
    ∧ contentSizeCheck 0 10489856 = (.tooLarge, true) := by
  refine ⟨?_, by decide, by decide⟩
  unfold r_extract_to_buffer_growth
  rw [bufGrow_total]
  rw [List.sum_replicate]
  norm_num

/-- C1 (amended): a matching entry with known (non-zero) declared
uncompressed size above the cap is rejected with TooLarge without
invoking the decoder; a matching entry with unknown (zero) declared size
is decoded to completion first — the buffer grows without any cap, so the
whole output (`cs.sum` bytes) is buffered — and the cap is enforced only
after the decode, reporting TooLarge (with the decoder invoked) when the
produced length exceeds the cap. -/
theorem c1_cap_check_amended (u d : Nat) (cs : List Nat)
    (hu : u ≠ 0) (hcap : MAX_CONTENT_SIZE < u) :
    contentSizeCheck u d = (.tooLarge, false)
    ∧ (r_extract_to_buffer_growth cs).2 = cs.sum
    ∧ (MAX_CONTENT_SIZE < cs.sum → contentSizeCheck 0 cs.sum = (.tooLarge, true)) := by
  refine ⟨?_, ?_, ?_⟩
  · unfold contentSizeCheck
    rw [if_pos hu, if_pos hcap]
  · unfold r_extract_to_buffer_growth
    rw [bufGrow_total]
    omega
  · intro h
    unfold contentSizeCheck
    rw [if_neg (by omega), if_pos h]

/-- C1 witness: the amended theorem at declared size 10485761 and a
single 10485761-byte output chunk. -/
theorem c1_cap_check_amended_witness :
    contentSizeCheck 10485761 0 = (.tooLarge, false)
    ∧ (r_extract_to_buffer_growth [10485761]).2 = List.sum [10485761]
    ∧ (MAX_CONTENT_SIZE < List.sum [10485761] →
        contentSizeCheck 0 (List.sum [10485761]) = (.tooLarge, true)) :=
  c1_cap_check_amended 10485761 0 [10485761] (by decide) (by decide)

/-- C2: for the local file header declaring a 300-byte filename, the code
parses the entry successfully — there is no check at all against the
maximum supported name length, so no FormatError is possible — while the
C's writes into `char filename[256]` reach index 300 (out of bounds,
`filenameWriteOverflow`); a 255-byte name still fits. Within the limit
the behaviour claimed does hold: for the 2-byte name of the first entry
of `file70`, exactly 2 bytes are read as the name and the payload starts
right after the header, name and (empty) extra field. -/
theorem c2_filename_overflow_eval :
    ((r_zip_get_next_entry O0 archiveLongName zp0open).okState.map
      (fun z => (z.name_length, z.filename.length))) = some (300, 300)
    ∧ filenameWriteOverflow 300 = true
    ∧ filenameWriteOverflow 255 = false
    ∧ ((r_zip_get_next_entry O0 file70 zp0open).okState.map
      (fun z => (z.filename, z.data_start))) = some ([97, 97], (32 : Int)) := by
  refine ⟨by decide, by decide, by decide, by decide⟩

/-- C3: after a successful decode of a deflate entry (payload start 0,
raw deflate stream of 10 compressed bytes, archive of 8192 bytes) into
the in-memory buffer sink, the stream position is 4096 — the end of the
last 4096-byte chunk fread — and NOT `payload_start + consumed = 10`,
because `r_extract_to_buffer` never repositions; `r_extract_current`
(remote sink) does reposition to `payload_start + consumed`, and the
store-to-buffer path ends at `payload_start + comp_size`. -/
theorem c3_buffer_sink_position_eval :
    r_extract_current_deflate_pos 8192 0 10 = 0 + 10
    ∧ r_extract_to_buffer_deflate_pos 8192 0 10 = 4096
    ∧ ¬ r_extract_to_buffer_deflate_pos 8192 0 10 = 0 + 10
    ∧ (r_extract_to_buffer oracle10 fileBlank8192 zpDeflateAt0).posOk = some 4096
    ∧ (r_extract_to_buffer oracle10 fileBlank8192 zpStoreAt10).posOk = some 15 := by
  refine ⟨by decide, by decide, by decide, by decide, by decide⟩

/-- C5: a store entry with the data-descriptor flag bit set inside flags
0x0A and compressed size 0 is ACCEPTED by `r_zip_get_next_entry` with its
compressed size recorded unknown (0) — no UnsupportedError — because the
check of lines 349-353 tests `flags == FLAG_DATA_DESCRIPTOR` by exact
equality; only a store entry whose flags word is exactly 0x08 is
rejected. -/
theorem c5_store_descriptor_flag_eval :
    ((r_zip_get_next_entry O0 archiveStoreFlagA zp0open).okState.map
      (fun z => (z.compression, z.flags, z.comp_size, hasDescriptorFlag z.flags))) =
      some (0, 10, 0, true)
    ∧ (r_zip_get_next_entry O0 archiveStoreFlag8 zp0open).isStoreDescriptorError = true := by
  refine ⟨by decide, by decide⟩

/-- C4 counterexample: a reachable trace in which the recorded
uncompressed size is NOT zero for a descriptor-flagged header with zero
compressed size. In `archiveStale`, entry "aa" (declared uncompressed
size 5) is fetched and extracted (so the state is consumed and not
reset), and the next header has the data-descriptor bit set with
compressed size 0: the parsed entry reports `comp_size = 0` but
`uncomp_size = 5`, the stale value of the earlier entry — refuting
"records both sizes as unknown (zero) regardless of what entries were
parsed earlier in the same traversal". -/
theorem c4_stale_uncomp_size_counterexample :
    ((r_zip_get_next_entry O0 archiveStale zp0open).okState.bind (fun z1 =>
      (r_extract_to_buffer O0 archiveStale z1).zpOk.bind (fun z1x =>
        (r_zip_get_next_entry O0 archiveStale z1x).okState.map (fun z2 =>
          (z2.comp_size, z2.uncomp_size, hasDescriptorFlag z2.flags))))) =
      some (0, 5, true)
    ∧ ((r_zip_get_next_entry O0 archiveStale zp0open).okState.bind (fun z1 =>
      (r_extract_to_buffer O0 archiveStale z1).zpOk.bind (fun z1x =>
        (r_zip_get_next_entry O0 archiveStale z1x).okState.map ZipParser.uncomp_size)))
      ≠ some 0 := by
  refine ⟨by decide, by decide⟩

/-- C4 (amended): when the data-descriptor flag bit is set and the
header's compressed size is zero, the size-recording step sets
`comp_size` to unknown (0) but does not write `uncomp_size` at all: the
parsed entry's uncompressed size equals whatever the parser state already
held, which is 0 exactly when the state had been freshly reset (as after
an auto-close), and stale otherwise. -/
theorem c4_descriptor_sizes_amended (zp : ZipParser) (lfh : LocalFileHeader)
    (h1 : hasDescriptorFlag lfh.flags = true) (h2 : lfh.compressedSize = 0) :
    (applySizes zp lfh).comp_size = 0
    ∧ (applySizes zp lfh).uncomp_size = zp.uncomp_size
    ∧ (zp.uncomp_size = 0 → (applySizes zp lfh).uncomp_size = 0) := by
  unfold applySizes
  rw [if_pos ⟨h1, h2⟩]
  exact ⟨rfl, rfl, fun h => h⟩

/-- C4 witness: the amended theorem at the descriptor-flagged header
`lfhDescriptor` and the stale state `zpStale5`. -/
theorem c4_descriptor_sizes_amended_witness :
    (applySizes zpStale5 lfhDescriptor).comp_size = 0
    ∧ (applySizes zpStale5 lfhDescriptor).uncomp_size = zpStale5.uncomp_size
    ∧ (zpStale5.uncomp_size = 0 → (applySizes zpStale5 lfhDescriptor).uncomp_size = 0) :=
  c4_descriptor_sizes_amended zpStale5 lfhDescriptor (by decide) (by decide)

/-- C8: whenever `r_zip_get_next_entry` runs on a state whose current
entry is unconsumed (`consumed = false`, `header_start ≠ -1`), it first
closes the entry — for a store entry the close advances the stream to
exactly `data_start + comp_size`, i.e. just past the payload; for a
deflate entry to `data_start` plus the compressed bytes the inflater
consumes — and only then scans for the next header from there. In
particular, on `file70`, calling next-entry twice in a row from the
opened state without consuming the first entry yields the second real
entry "bb". -/
theorem c8_autoclose_advance (O : InflateOracle) (f : ByteFile) (zp : ZipParser)
    (h1 : zp.consumed = false) (h2 : zp.header_start ≠ -1) :
    r_zip_get_next_entry O f zp = r_zip_next_scan f (r_close_entry O zp)
    ∧ (zp.compression = COMPRESSION_STORE →
        (r_close_entry O zp).pos = (zp.data_start + (zp.comp_size : Int)).toNat)
    ∧ (zp.compression = COMPRESSION_DEFLATE →
        (r_close_entry O zp).pos = zp.data_start.toNat + O.consumedLen zp.data_start.toNat)
    ∧ ((r_zip_get_next_entry O0 file70 zp0open).okState.bind (fun z1 =>
        (r_zip_get_next_entry O0 file70 z1).okState.map (fun z2 =>
          (z2.filename, z1.consumed, z1.filename)))) =
      some ([98, 98], false, [97, 97]) := by
  refine ⟨?_, ?_, ?_, by decide⟩
  · unfold r_zip_get_next_entry
    rw [if_pos ⟨h1, h2⟩]
  · intro hc
    unfold r_close_entry
    rw [if_neg (by rw [hc]; decide), if_pos hc]
    rfl
  · intro hc
    unfold r_close_entry
    rw [if_pos hc]
    rfl

/-- C8 witness: the theorem at the canonical reset state on `file70`. -/
theorem c8_autoclose_advance_witness :
    r_zip_get_next_entry O0 file70 zpCanon = r_zip_next_scan file70 (r_close_entry O0 zpCanon)
    ∧ (zpCanon.compression = COMPRESSION_STORE →
        (r_close_entry O0 zpCanon).pos = (zpCanon.data_start + (zpCanon.comp_size : Int)).toNat)
    ∧ (zpCanon.compression = COMPRESSION_DEFLATE →
        (r_close_entry O0 zpCanon).pos = zpCanon.data_start.toNat + O0.consumedLen zpCanon.data_start.toNat)
    ∧ ((r_zip_get_next_entry O0 file70 zp0open).okState.bind (fun z1 =>
        (r_zip_get_next_entry O0 file70 z1).okState.map (fun z2 =>
          (z2.filename, z1.consumed, z1.filename)))) =
      some ([98, 98], false, [97, 97]) :=
  c8_autoclose_advance O0 file70 zpCanon (by decide) (by decide)

/-- C9: the app-bundle locator's per-entry rule and the example hold —
on the archive with entries "Payload/.hidden/foo", "Payload/Foo.app/bin",
"Payload/Bar.app/bin" it returns "Payload/Foo.app/", and with no
qualifying entry it returns NotFound — but the claimed "entries with no
next slash are skipped" fails: for the name "Payload/Foo" the slash scan
`do { ... } while (p++ != NULL)` can only exit by finding a slash, so the
C walks past the end of the string (undefined behaviour, `.ub`) instead
of skipping the entry; the `if (p == NULL) continue;` is dead code. -/
theorem c9_app_locator_eval :
    appDirEntryStep namePayloadFoo = .ub
    ∧ appDirEntryStep namePayloadFoo ≠ .skip
    ∧ (r_get_app_directory O0 archiveApp zp0open 10).path? = some nameFooAppPrefix
    ∧ (r_get_app_directory O0 archiveNoApp zp0open 10).isNotFound = true := by
  refine ⟨by decide, by decide, by decide, by decide⟩

/-- C10 counterexample: on `file70` ("aa" before "bb"), fetching "bb"
first (delivered: payload "y" = [121]) and then fetching "aa" — an entry
that lies EARLIER in the archive than the position already reached —
still succeeds, delivering payload "x" = [120] with return code 0. The
lookups are not forward-only: `r_get_content` resets the parser state
(zeroing `header_start` and `data_start`), so the auto-close inside the
next `r_zip_get_next_entry` takes the store branch and seeks to
`data_start + comp_size = 0`, restarting every lookup's scan from the
beginning of the file. -/
theorem c10_rescan_counterexample :
    ((r_get_content O0 file70 [98, 98] zp0open 10).ret?.bind (fun o1 =>
      (r_get_content O0 file70 [97, 97] o1.zp 10).ret?.map (fun o2 =>
        (o1.rc, o1.buffer, o1.len, o2.rc, o2.buffer, o2.len)))) =
    some ((0 : Int), some [121], (1 : Nat), (0 : Int), some [120], (1 : Nat)) := by
  rfl

theorem reset_then_next_canon (O : InflateOracle) (f : ByteFile) (z : ZipParser) :
    r_zip_get_next_entry O f (r_reset_entry z) = r_zip_next_scan f zpCanon := by
  unfold r_zip_get_next_entry
  rw [if_pos ⟨rfl, show (0 : Int) ≠ -1 by decide⟩]
  rfl

/-- C10 (amended): `r_get_content` does not scan forward from the
parser's current position; it is position-independent. It resets the
parser state up front, and the auto-close of that zeroed state inside the
first `r_zip_get_next_entry` seeks the stream to
`data_start + comp_size = 0`, so every call scans the whole archive from
offset 0: the result is the same for any starting state, and an entry
lying earlier than the position already reached is still found. -/
theorem c10_rescan_amended (O : InflateOracle) (f : ByteFile) (target : List Nat)
    (zp : ZipParser) (fuel : Nat) (hfuel : 1 ≤ fuel) :
    r_get_content O f target zp fuel = r_get_content O f target zp0open fuel := by
  obtain ⟨k, rfl⟩ : ∃ k, fuel = k + 1 := ⟨fuel - 1, by omega⟩
  unfold r_get_content
  simp only [r_get_content_loop]
  rw [reset_then_next_canon O f zp, reset_then_next_canon O f zp0open]

/-- C10 witness: the amended theorem for the fetch of "aa" on `file70`
from a state positioned at the end of the archive. -/
theorem c10_rescan_amended_witness :
    r_get_content O0 file70 [97, 97] { zpCanon with pos := 66 } 10 =
    r_get_content O0 file70 [97, 97] zp0open 10 :=
  c10_rescan_amended O0 file70 [97, 97] { zpCanon with pos := 66 } 10 (by omega)
